import Mathlib

/-!
# A verification development for `precode.go`

`precode.go` is a small HTTP service: a package-level map `tasks` from task id to
`Task`, four handlers over it, and `main`, which registers the handlers with a chi
router.

The embedding is shallow.

* The package-level variable `tasks` becomes an explicit `TaskMap` that every handler
  receives and returns.
* `http.ResponseWriter` becomes the record `ResponseWriter` (header, status, body) that
  a handler transforms.
* JSON text is represented by what the decoder's syntax check makes of it: either a
  syntax error or a JSON value (`JSON`).  `json.Unmarshal` into a `Task` and
  `json.Marshal` of a `Task` / of the map are functions on JSON values that follow the
  rules of Go's `encoding/json` for this struct type.
* `http.Error`, `chi.URLParam` and chi's route matching follow the published behaviour
  of `net/http` and `go-chi/chi/v5`.
* A request is the `*http.Request` the router receives, after `net/http` has parsed the
  request line: `Path` and `RawPath` are `r.URL.Path` and `r.URL.RawPath` as `net/url`
  sets them (the query cut off, `Path` percent-decoded, `RawPath` empty unless the
  request line's path is not the default encoding of `Path`).
* Requests are served one at a time; the unsynchronised concurrent access to `tasks`
  is outside the embedding.
-/

namespace Precode

/-! ## Data model -/

/-- Go `type Task struct`.  A Go slice is either `nil` or a sequence, and the two are
told apart by `encoding/json` (`null` against `[...]`), so `Applications` is an
`Option`: `none` is the nil slice. -/
structure Task where
  ID : String
  Description : String
  Note : String
  Applications : Option (List String)
deriving DecidableEq, Repr

/-- The zero value that `var task Task` declares. -/
def Task.zero : Task :=
  { ID := "", Description := "", Note := "", Applications := none }

/-- A Go `map[string]Task`: finitely many entries, no key twice. -/
structure TaskMap where
  entries : List (String × Task)
  nodup : (entries.map Prod.fst).Nodup

instance : DecidableEq TaskMap := fun a b =>
  if h : a.entries = b.entries then
    isTrue (by cases a; cases b; cases h; rfl)
  else isFalse (fun e => h (by rw [e]))

/-- The keys of the map. -/
def TaskMap.keys (m : TaskMap) : List String := m.entries.map Prod.fst

/-- The map index expression `task, ok := m[k]`: `none` stands for `ok == false`. -/
def TaskMap.get (m : TaskMap) (k : String) : Option Task :=
  (m.entries.find? (fun e => e.1 == k)).map Prod.snd

/-- The builtin `delete(m, k)`: removes the entry under `k`, no-op when there is none. -/
def TaskMap.delete (m : TaskMap) (k : String) : TaskMap :=
  ⟨m.entries.filter (fun e => e.1 != k),
    List.Nodup.sublist (List.Sublist.map _ (List.filter_sublist _)) m.nodup⟩

/-- The map assignment `m[k] = t`: inserts, or replaces the entry under `k`. -/
def TaskMap.set (m : TaskMap) (k : String) (t : Task) : TaskMap :=
  ⟨(k, t) :: m.entries.filter (fun e => e.1 != k), by
    rw [List.map_cons, List.nodup_cons]
    refine ⟨?_, List.Nodup.sublist (List.Sublist.map _ (List.filter_sublist _)) m.nodup⟩
    simp [List.mem_map, List.mem_filter]⟩

/-- The package-level `var tasks`, as the composite literal initialises it. -/
def tasks : TaskMap :=
  ⟨[ ("1",
      { ID := "1"
        Description := "Сделать финальное задание темы REST API"
        Note := "Если сегодня сделаю, то завтра будет свободный день. Ура!"
        Applications := some ["VS Code", "Terminal", "git"] }),
     ("2",
      { ID := "2"
        Description := "Протестировать финальное задание с помощью Postmen"
        Note := "Лучше это делать в процессе разработки, каждый раз, когда запускаешь сервер и проверяешь хендлер"
        Applications := some ["VS Code", "Terminal", "git", "Postman"] }) ],
   by decide⟩

/-! ## JSON values and `encoding/json` -/

/-- A JSON value.  A number keeps its literal text; an object keeps its members in the
order of the text, repeated keys included. -/
inductive JSON where
  | null
  | bool (b : Bool)
  | number (lit : String)
  | string (s : String)
  | array (elems : List JSON)
  | object (members : List (String × JSON))

/-- The word `encoding/json` uses for a value in an `UnmarshalTypeError`. -/
def JSON.kind : JSON → String
  | .null => "null"
  | .bool _ => "bool"
  | .number _ => "number"
  | .string _ => "string"
  | .array _ => "array"
  | .object _ => "object"

/-- Bytes handed to `json.Unmarshal`, by the outcome of its syntax check
(`checkValid`): the text of a `SyntaxError`, or the value the bytes denote. -/
inductive Bytes where
  | invalid (syntaxErr : String)
  | valid (v : JSON)

/-- The request body as an `io.Reader`: reading it fails, or yields bytes. -/
inductive Body where
  | broken (readErr : String)
  | data (b : Bytes)

/-- The call `buf.ReadFrom(r.Body)`: the error, or the buffer content. -/
def ReadFrom (body : Body) : Except String Bytes :=
  match body with
  | .broken e => .error e
  | .data b => .ok b

/-- One rune of a key under the case folding `encoding/json` matches field names by
(`bytes.EqualFold`): ASCII letters fold to lower case, and the only other runes that
fold to an ASCII letter are the long s (U+017F) and the Kelvin sign (U+212A). -/
def foldRune (c : Char) : Char :=
  if c = Char.ofNat 0x17F then 's'
  else if c = Char.ofNat 0x212A then 'k'
  else c.toLower

/-- The folded form of a key (`foldName`). -/
def foldName (key : String) : String := String.mk (key.data.map foldRune)

/-- The four fields of `Task`, in declaration order. -/
inductive Field where
  | id | description | note | applications
deriving DecidableEq, Repr

/-- The name the struct tag gives the field. -/
def Field.name : Field → String
  | .id => "id"
  | .description => "description"
  | .note => "note"
  | .applications => "applications"

/-- The fields in declaration order. -/
def Field.all : List Field := [.id, .description, .note, .applications]

/-- The field an object key selects: the one whose name is the key exactly,
otherwise the one whose name equals the key under case folding; `none` for a key
that names no field (its value is skipped). -/
def findField (key : String) : Option Field :=
  match Field.all.find? (fun f => f.name == key) with
  | some f => some f
  | none => Field.all.find? (fun f => foldName f.name == foldName key)

/-- Decoding a value into a `string` that currently holds `cur`: a JSON string is
stored, `null` leaves the string as it is, anything else is an
`UnmarshalTypeError`.  The wording of the message is that of one Go release and differs
between releases; nothing below depends on it. -/
def decodeString (field : String) (v : JSON) (cur : String) : Except String String :=
  match v with
  | .string s => .ok s
  | .null => .ok cur
  | other =>
    .error ("json: cannot unmarshal " ++ other.kind ++ " into Go struct field Task."
      ++ field ++ " of type string")

/-- Decoding the elements of an array into the slots of a `[]string`; `old` is what
the slice holds before, and a `null` element leaves its slot as it is.  Slots past
the old length are taken to hold the empty string; that is what they hold unless the
same key was decoded as an array at least twice before. -/
def decodeElems (field : String) : List JSON → List String → Except String (List String)
  | [], _ => .ok []
  | v :: vs, old =>
    match decodeString field v (old.headD "") with
    | .error e => .error e
    | .ok s =>
      match decodeElems field vs old.tail with
      | .error e => .error e
      | .ok rest => .ok (s :: rest)

/-- Decoding a value into a `[]string` that currently holds `cur`: `null` sets the
slice to nil, an array is decoded element by element (an empty array gives the empty,
non-nil slice), anything else is an `UnmarshalTypeError`. -/
def decodeSlice (field : String) (v : JSON) (cur : Option (List String)) :
    Except String (Option (List String)) :=
  match v with
  | .null => .ok none
  | .array vs =>
    match decodeElems field vs (cur.getD []) with
    | .error e => .error e
    | .ok xs => .ok (some xs)
  | other =>
    .error ("json: cannot unmarshal " ++ other.kind ++ " into Go struct field Task."
      ++ field ++ " of type []string")

/-- Decoding the members of an object into `t`, in order; a later member for the same
field decodes into what the earlier one left. -/
def decodeMembers : List (String × JSON) → Task → Except String Task
  | [], t => .ok t
  | (key, v) :: rest, t =>
    match findField key with
    | none => decodeMembers rest t
    | some .id =>
      match decodeString "id" v t.ID with
      | .error e => .error e
      | .ok s => decodeMembers rest { t with ID := s }
    | some .description =>
      match decodeString "description" v t.Description with
      | .error e => .error e
      | .ok s => decodeMembers rest { t with Description := s }
    | some .note =>
      match decodeString "note" v t.Note with
      | .error e => .error e
      | .ok s => decodeMembers rest { t with Note := s }
    | some .applications =>
      match decodeSlice "applications" v t.Applications with
      | .error e => .error e
      | .ok xs => decodeMembers rest { t with Applications := xs }

/-- Decoding a JSON value into the struct `t`: an object is decoded member by member,
`null` has no effect and is no error, any other value is an `UnmarshalTypeError`. -/
def unmarshalValue (v : JSON) (t : Task) : Except String Task :=
  match v with
  | .object members => decodeMembers members t
  | .null => .ok t
  | other =>
    .error ("json: cannot unmarshal " ++ other.kind ++ " into Go value of type main.Task")

/-- The call `json.Unmarshal(data, &task)`: `.error` is the returned error, `.ok` the
content of `task` after a call that returned nil. -/
def jsonUnmarshal (data : Bytes) (task : Task) : Except String Task :=
  match data with
  | .invalid e => .error e
  | .valid v => unmarshalValue v task

/-- The JSON value `json.Marshal` writes for a `Task`: the four tagged fields in
declaration order, a nil slice as `null`. -/
def encodeTask (t : Task) : JSON :=
  .object
    [ ("id", .string t.ID),
      ("description", .string t.Description),
      ("note", .string t.Note),
      ("applications",
        match t.Applications with
        | none => .null
        | some xs => .array (xs.map JSON.string)) ]

/-- The call `json.Marshal(task)`; for this struct type it has no failing case. -/
def jsonMarshalTask (t : Task) : Except String JSON := .ok (encodeTask t)

/-- Insertion of an entry into a list of entries ordered by key.  Go orders strings
by their bytes, which for UTF-8 text is the order of the code points. -/
def insertByKey (e : String × Task) : List (String × Task) → List (String × Task)
  | [] => [e]
  | x :: xs => if e.1.data < x.1.data then e :: x :: xs else x :: insertByKey e xs

/-- The entries ordered by key, the order `json.Marshal` writes a map in. -/
def sortByKey : List (String × Task) → List (String × Task)
  | [] => []
  | e :: es => insertByKey e (sortByKey es)

/-- The JSON value `json.Marshal` writes for the map: an object with one member per
entry, keys in sorted order. -/
def encodeMap (m : TaskMap) : JSON :=
  .object ((sortByKey m.entries).map (fun e => (e.1, encodeTask e.2)))

/-- The call `json.Marshal(tasks)`; for this map type it has no failing case. -/
def jsonMarshalMap (m : TaskMap) : Except String JSON := .ok (encodeMap m)

/-- The two steps that `postTaskOnServer` and `deleteTaskFromMapById` start with, as
one function: read the body, decode it into a zero `Task`.  A body is well-formed JSON
for a `Task` when this returns `.ok`. -/
def readTask (body : Body) : Except String Task :=
  match ReadFrom body with
  | .error err => .error err
  | .ok buf => jsonUnmarshal buf Task.zero

/-! ## `net/http` -/

/-- An `http.Header`, as far as the handlers use it: one value per key. -/
abbrev Header := List (String × String)

/-- `h.Set(key, value)`. -/
def Header.Set (h : Header) (key value : String) : Header :=
  (key, value) :: h.filter (fun kv => kv.1 != key)

/-- `h.Get(key)`; `none` when the key is not set. -/
def Header.Get (h : Header) (key : String) : Option String :=
  (h.find? (fun kv => kv.1 == key)).map Prod.snd

/-- What a handler writes to the response body in one `Write`: plain text, or the
bytes `json.Marshal` returned (by the value they denote). -/
inductive Chunk where
  | text (s : String)
  | json (v : JSON)

/-- Whether the write sends no byte at all. -/
def Chunk.isEmpty : Chunk → Bool
  | .text s => s.data.isEmpty
  | .json _ => false

/-- The response a handler builds through its `http.ResponseWriter`.  `status = 0`
means the status line is not written yet; once it is, header and status are sent and
later changes do not reach the client. -/
structure ResponseWriter where
  header : Header := []
  status : Nat := 0
  body : List Chunk := []

/-- The writer `net/http` hands to a handler. -/
def ResponseWriter.fresh : ResponseWriter := {}

/-- `w.Header().Set(key, value)`. -/
def ResponseWriter.SetHeader (w : ResponseWriter) (key value : String) : ResponseWriter :=
  if w.status = 0 then { w with header := w.header.Set key value } else w

/-- `w.WriteHeader(code)`. -/
def ResponseWriter.WriteHeader (w : ResponseWriter) (code : Nat) : ResponseWriter :=
  if w.status = 0 then { w with status := code } else w

/-- `w.Write(...)`; a write before `WriteHeader` sends status 200 first. -/
def ResponseWriter.Write (w : ResponseWriter) (c : Chunk) : ResponseWriter :=
  let w1 := w.WriteHeader 200
  { w1 with body := w1.body ++ [c] }

/-- Whether the response carries a body of at least one byte. -/
def ResponseWriter.hasBody (w : ResponseWriter) : Bool :=
  w.body.any (fun c => !c.isEmpty)

/-- The value of the response's Content-Type header. -/
def ResponseWriter.contentType (w : ResponseWriter) : Option String :=
  w.header.Get "Content-Type"

/-- `http.Error(w, error, code)`: sets Content-Type to plain text and
X-Content-Type-Options to nosniff, writes the status, then prints the message
followed by a newline (`fmt.Fprintln`). -/
def httpError (w : ResponseWriter) (error : String) (code : Nat) : ResponseWriter :=
  let w1 := w.SetHeader "Content-Type" "text/plain; charset=utf-8"
  let w2 := w1.SetHeader "X-Content-Type-Options" "nosniff"
  let w3 := w2.WriteHeader code
  w3.Write (.text (error ++ "\n"))

def StatusOK : Nat := 200
def StatusCreated : Nat := 201
def StatusBadRequest : Nat := 400
def StatusNotFound : Nat := 404
def StatusMethodNotAllowed : Nat := 405
def StatusInternalServerError : Nat := 500

/-- An `*http.Request`, as far as the handlers and the router read it: the method,
`URL.Path` (the percent-decoded path, without the query), `URL.RawPath` (the path as
the request line wrote it, set by `net/url` only when that is not the default encoding
of `URL.Path`, otherwise empty), the body, and the URL parameters chi stores in the
request context.  For the request line `GET /tasks/a%20b`, `Path` is `/tasks/a b` and
`RawPath` is empty; for `GET /tasks/%31`, `Path` is `/tasks/1` and `RawPath` is
`/tasks/%31`. -/
structure Request where
  Method : String := "GET"
  Path : String := "/"
  RawPath : String := ""
  Body : Body := .data (.invalid "unexpected end of JSON input")
  URLParams : List (String × String) := []

/-- `chi.URLParam(r, key)`: the value of the last parameter with that name, the empty
string when there is none. -/
def URLParam (r : Request) (key : String) : String :=
  match r.URLParams.reverse.find? (fun kv => kv.1 == key) with
  | some kv => kv.2
  | none => ""

/-! ## The handlers -/

/-- `func getTaskFromMap`. -/
def getTaskFromMap (tasks : TaskMap) (w : ResponseWriter) (_r : Request) :
    TaskMap × ResponseWriter :=
  match jsonMarshalMap tasks with
  | .error err => (tasks, httpError w err StatusInternalServerError)
  | .ok resp =>
    let w1 := w.SetHeader "Content-Type" "application/json"
    let w2 := w1.WriteHeader StatusOK
    (tasks, w2.Write (.json resp))

/-- `func postTaskOnServer`. -/
def postTaskOnServer (tasks : TaskMap) (w : ResponseWriter) (r : Request) :
    TaskMap × ResponseWriter :=
  match ReadFrom r.Body with
  | .error err => (tasks, httpError w err StatusBadRequest)
  | .ok buf =>
    match jsonUnmarshal buf Task.zero with
    | .error err => (tasks, httpError w err StatusBadRequest)
    | .ok task =>
      let tasks1 := tasks.set task.ID task
      let w1 := w.SetHeader "Content-Type" "application/json"
      (tasks1, w1.WriteHeader StatusCreated)

/-- `func getTaskFromMapById`. -/
def getTaskFromMapById (tasks : TaskMap) (w : ResponseWriter) (r : Request) :
    TaskMap × ResponseWriter :=
  let id := URLParam r "id"
  match tasks.get id with
  | none => (tasks, httpError w "Задание не найдено" StatusBadRequest)
  | some task =>
    match jsonMarshalTask task with
    | .error err => (tasks, httpError w err StatusBadRequest)
    | .ok resp =>
      let w1 := w.SetHeader "Content-Type" "application/json"
      let w2 := w1.WriteHeader StatusOK
      (tasks, w2.Write (.json resp))

/-- `func deleteTaskFromMapById`. -/
def deleteTaskFromMapById (tasks : TaskMap) (w : ResponseWriter) (r : Request) :
    TaskMap × ResponseWriter :=
  match ReadFrom r.Body with
  | .error err => (tasks, httpError w err StatusBadRequest)
  | .ok buf =>
    match jsonUnmarshal buf Task.zero with
    | .error err => (tasks, httpError w err StatusBadRequest)
    | .ok task =>
      let tasks1 := tasks.delete task.ID
      let w1 := w.SetHeader "Content-Type" "application/json"
      (tasks1, w1.WriteHeader StatusOK)

/-! ## `main`: the routes -/

/-- The four handler functions. -/
inductive Handler where
  | getTaskFromMap
  | postTaskOnServer
  | getTaskFromMapById
  | deleteTaskFromMapById
deriving DecidableEq, Repr

/-- Running a handler function. -/
def Handler.run (h : Handler) (tasks : TaskMap) (w : ResponseWriter) (r : Request) :
    TaskMap × ResponseWriter :=
  match h with
  | .getTaskFromMap => Precode.getTaskFromMap tasks w r
  | .postTaskOnServer => Precode.postTaskOnServer tasks w r
  | .getTaskFromMapById => Precode.getTaskFromMapById tasks w r
  | .deleteTaskFromMapById => Precode.deleteTaskFromMapById tasks w r

/-- One registration `r.Get(pattern, h)`, `r.Post(...)`, `r.Delete(...)`. -/
structure Route where
  method : String
  pattern : String
  handler : Handler

/-- The registrations of `main`, in order. -/
def routes : List Route :=
  [ { method := "GET", pattern := "/tasks", handler := .getTaskFromMap },
    { method := "POST", pattern := "/tasks", handler := .postTaskOnServer },
    { method := "GET", pattern := "/tasks/{id}", handler := .getTaskFromMapById },
    { method := "DELETE", pattern := "/tasks/{id}", handler := .deleteTaskFromMapById } ]

/-- The segments of a path or pattern between its slashes. -/
def splitSlash : List Char → List (List Char)
  | [] => [[]]
  | c :: cs =>
    if c = '/' then [] :: splitSlash cs
    else
      match splitSlash cs with
      | [] => [[c]]
      | s :: ss => (c :: s) :: ss

/-- The name of a pattern segment of the form `{name}`. -/
def paramName (seg : List Char) : Option String :=
  match seg with
  | '{' :: rest => if rest.getLast? = some '}' then some (String.mk rest.dropLast) else none
  | _ => none

/-- Matching pattern segments against path segments: a literal segment matches
itself, a `{name}` segment matches any non-empty segment and binds it. -/
def matchSegments : List (List Char) → List (List Char) → Option (List (String × String))
  | [], [] => some []
  | p :: ps, s :: ss =>
    match paramName p with
    | some name =>
      if s = [] then none
      else (matchSegments ps ss).map (fun rest => (name, String.mk s) :: rest)
    | none => if p = s then matchSegments ps ss else none
  | _, _ => none

/-- Matching a chi pattern against a request path; the result is the URL parameters. -/
def matchPattern (pattern path : String) : Option (List (String × String)) :=
  matchSegments (splitSlash pattern.data) (splitSlash path.data)

/-- The methods chi knows (`methodMap`); names are case-sensitive. -/
def methodMap : List String :=
  ["CONNECT", "DELETE", "GET", "HEAD", "OPTIONS", "PATCH", "POST", "PUT", "TRACE"]

/-- The path chi routes a request on (`routeHTTP`): `r.URL.RawPath` when it is set,
otherwise `r.URL.Path`, and `/` when that is empty.  The router matches it as it is,
without decoding. -/
def routePath (r : Request) : String :=
  if r.RawPath = "" then (if r.Path = "" then "/" else r.Path) else r.RawPath

/-- The router built by `main` serving one request on a fresh writer (chi's
`routeHTTP`): a method chi does not know gets 405; otherwise the handler registered
for the method and the route path runs, with the URL parameters of the match; a route
path no pattern matches gets chi's `http.NotFound`, a matched route path without the
method gets 405.  The 405 response has no body (its `Allow` header, which recent chi
versions add, is left out).  When no handler runs the store is untouched. -/
def ServeHTTP (tasks : TaskMap) (r : Request) : TaskMap × ResponseWriter :=
  if methodMap.contains r.Method then
    match routes.filterMap
        (fun rt => (matchPattern rt.pattern (routePath r)).map (fun ps => (rt, ps))) with
    | [] => (tasks, httpError ResponseWriter.fresh "404 page not found" StatusNotFound)
    | found =>
      match found.find? (fun x => x.1.method == r.Method) with
      | none => (tasks, ResponseWriter.fresh.WriteHeader StatusMethodNotAllowed)
      | some x => x.1.handler.run tasks ResponseWriter.fresh { r with URLParams := x.2 }
  else (tasks, ResponseWriter.fresh.WriteHeader StatusMethodNotAllowed)

/-- The store after a sequence of handler calls, each on a fresh writer. -/
inductive Reachable : TaskMap → Prop where
  | init : Reachable tasks
  | step (h : Handler) (r : Request) {m : TaskMap} :
      Reachable m → Reachable (h.run m ResponseWriter.fresh r).1

/-! ## Lemmas about the map -/

theorem find_filter_ne (l : List (String × Task)) (k k1 : String) (h : k1 ≠ k) :
    (l.filter (fun e => e.1 != k)).find? (fun e => e.1 == k1)
      = l.find? (fun e => e.1 == k1) := by
  rw [List.find?_filter]
  congr 1
  funext e
  by_cases h2 : e.1 = k1
  · have : e.1 ≠ k := fun hk => h (h2 ▸ hk)
    simp [h2, h]
  · simp [h2]

theorem TaskMap.get_eq_none_iff (m : TaskMap) (k : String) :
    m.get k = none ↔ k ∉ m.keys := by
  simp only [TaskMap.get, TaskMap.keys, Option.map_eq_none', List.find?_eq_none,
    List.mem_map, not_exists, not_and]
  constructor
  · intro h e he hk
    exact h e he (by simpa using hk)
  · intro h e he
    simpa using h e he

theorem TaskMap.get_set_self (m : TaskMap) (k : String) (t : Task) :
    (m.set k t).get k = some t := by
  simp [TaskMap.get, TaskMap.set]

theorem TaskMap.get_set_ne (m : TaskMap) (k k1 : String) (t : Task) (h : k1 ≠ k) :
    (m.set k t).get k1 = m.get k1 := by
  have hk : (k == k1) = false := by simpa using fun e => h e.symm
  simp only [TaskMap.get, TaskMap.set, List.find?_cons, hk]
  rw [find_filter_ne _ _ _ h]

theorem TaskMap.get_delete_self (m : TaskMap) (k : String) :
    (m.delete k).get k = none := by
  simp [TaskMap.get, TaskMap.delete, List.find?_eq_none]

theorem TaskMap.get_delete_ne (m : TaskMap) (k k1 : String) (h : k1 ≠ k) :
    (m.delete k).get k1 = m.get k1 := by
  simp only [TaskMap.get, TaskMap.delete]
  rw [find_filter_ne _ _ _ h]

theorem TaskMap.delete_absent (m : TaskMap) (k : String) (h : m.get k = none) :
    m.delete k = m := by
  have hk : k ∉ m.keys := (m.get_eq_none_iff k).1 h
  have : (m.delete k).entries = m.entries := by
    simp only [TaskMap.delete]
    rw [List.filter_eq_self]
    intro e he
    have : e.1 ≠ k := fun hek => hk (hek ▸ List.mem_map_of_mem Prod.fst he)
    simpa using this
  cases m
  simp only [TaskMap.delete] at this ⊢
  congr

theorem TaskMap.mem_entries_iff_get (m : TaskMap) (k : String) (t : Task) :
    (k, t) ∈ m.entries ↔ m.get k = some t := by
  obtain ⟨es, nd⟩ := m
  simp only [TaskMap.get]
  induction es with
  | nil => simp
  | cons e es ih =>
    rw [List.map_cons, List.nodup_cons] at nd
    by_cases he : e.1 = k
    · have hne : ∀ t1, (k, t1) ∉ es := fun t1 hm =>
        nd.1 (he ▸ List.mem_map_of_mem Prod.fst hm)
      obtain ⟨a, b⟩ := e
      simp only at he
      subst he
      simp [List.find?_cons, hne]
      exact eq_comm
    · have h1 : (k, t) ≠ e := fun h => he (by rw [← h])
      simp [List.find?_cons, he, h1, ih nd.2]

/-! ## Lemmas about `encoding/json` -/

theorem decodeElems_strings (field : String) (xs old : List String) :
    decodeElems field (xs.map JSON.string) old = .ok xs := by
  induction xs generalizing old with
  | nil => rfl
  | cons x xs ih => simp [decodeElems, decodeString, ih]

theorem findField_id : findField "id" = some .id := by decide

theorem findField_description : findField "description" = some .description := by decide

theorem findField_note : findField "note" = some .note := by decide

theorem findField_applications : findField "applications" = some .applications := by decide

/-- Decoding what `json.Marshal` wrote for a task gives that task back, whatever the
target held before. -/
theorem unmarshalValue_encodeTask (t t0 : Task) :
    unmarshalValue (encodeTask t) t0 = .ok t := by
  obtain ⟨i, d, n, a⟩ := t
  cases a <;>
    simp [unmarshalValue, encodeTask, decodeMembers, findField_id, findField_description,
      findField_note, findField_applications, decodeString, decodeSlice,
      decodeElems_strings]

/-- The body `{"id": X}` decodes to the task with that id and zero fields otherwise. -/
theorem readTask_id_only (X : String) :
    readTask (.data (.valid (.object [("id", .string X)])))
      = .ok { ID := X, Description := "", Note := "", Applications := none } := by
  simp [readTask, ReadFrom, jsonUnmarshal, unmarshalValue, decodeMembers, findField_id,
    decodeString, Task.zero]

/-! ## What each handler returns -/

theorem postTaskOnServer_ok (m : TaskMap) (w : ResponseWriter) (r : Request) (P : Task)
    (h : readTask r.Body = .ok P) :
    postTaskOnServer m w r
      = (m.set P.ID P,
          (w.SetHeader "Content-Type" "application/json").WriteHeader StatusCreated) := by
  unfold readTask at h
  unfold postTaskOnServer
  cases hr : ReadFrom r.Body with
  | error e => rw [hr] at h; cases h
  | ok buf => rw [hr] at h; simp only at h; simp only [h]

theorem postTaskOnServer_error (m : TaskMap) (w : ResponseWriter) (r : Request)
    (e : String) (h : readTask r.Body = .error e) :
    postTaskOnServer m w r = (m, httpError w e StatusBadRequest) := by
  unfold readTask at h
  unfold postTaskOnServer
  cases hr : ReadFrom r.Body with
  | error e1 => rw [hr] at h; cases h; rfl
  | ok buf => rw [hr] at h; simp only at h; simp only [h]

theorem deleteTaskFromMapById_ok (m : TaskMap) (w : ResponseWriter) (r : Request)
    (P : Task) (h : readTask r.Body = .ok P) :
    deleteTaskFromMapById m w r
      = (m.delete P.ID,
          (w.SetHeader "Content-Type" "application/json").WriteHeader StatusOK) := by
  unfold readTask at h
  unfold deleteTaskFromMapById
  cases hr : ReadFrom r.Body with
  | error e => rw [hr] at h; cases h
  | ok buf => rw [hr] at h; simp only at h; simp only [h]

theorem deleteTaskFromMapById_error (m : TaskMap) (w : ResponseWriter) (r : Request)
    (e : String) (h : readTask r.Body = .error e) :
    deleteTaskFromMapById m w r = (m, httpError w e StatusBadRequest) := by
  unfold readTask at h
  unfold deleteTaskFromMapById
  cases hr : ReadFrom r.Body with
  | error e1 => rw [hr] at h; cases h; rfl
  | ok buf => rw [hr] at h; simp only at h; simp only [h]

theorem getTaskFromMapById_found (m : TaskMap) (w : ResponseWriter) (r : Request)
    (t : Task) (h : m.get (URLParam r "id") = some t) :
    getTaskFromMapById m w r
      = (m, ((w.SetHeader "Content-Type" "application/json").WriteHeader StatusOK).Write
              (.json (encodeTask t))) := by
  simp [getTaskFromMapById, h, jsonMarshalTask]

theorem getTaskFromMapById_missing (m : TaskMap) (w : ResponseWriter) (r : Request)
    (h : m.get (URLParam r "id") = none) :
    getTaskFromMapById m w r
      = (m, httpError w "Задание не найдено" StatusBadRequest) := by
  simp [getTaskFromMapById, h]

theorem getTaskFromMap_eq (m : TaskMap) (w : ResponseWriter) (r : Request) :
    getTaskFromMap m w r
      = (m, ((w.SetHeader "Content-Type" "application/json").WriteHeader StatusOK).Write
              (.json (encodeMap m))) := by
  simp [getTaskFromMap, jsonMarshalMap]

/-- The response `http.Error` builds on a fresh writer. -/
theorem httpError_fresh (e : String) (code : Nat) (hc : code ≠ 0) :
    httpError ResponseWriter.fresh e code
      = { header := [("X-Content-Type-Options", "nosniff"),
                     ("Content-Type", "text/plain; charset=utf-8")],
          status := code,
          body := [.text (e ++ "\n")] } := by
  simp [httpError, ResponseWriter.fresh, ResponseWriter.SetHeader,
    ResponseWriter.WriteHeader, ResponseWriter.Write, Header.Set, hc]

/-- The success response of a handler on a fresh writer, before any body is written. -/
theorem jsonHeader_fresh (code : Nat) :
    (ResponseWriter.fresh.SetHeader "Content-Type" "application/json").WriteHeader code
      = { header := [("Content-Type", "application/json")], status := code, body := [] } := by
  simp [ResponseWriter.fresh, ResponseWriter.SetHeader, ResponseWriter.WriteHeader,
    Header.Set]

/-- A field that no member of the object selects keeps the value it had. -/
theorem decodeMembers_frame (members : List (String × JSON)) (t t1 : Task)
    (h : decodeMembers members t = .ok t1) :
    ((∀ kv ∈ members, findField kv.1 ≠ some .description) →
        t1.Description = t.Description) ∧
    ((∀ kv ∈ members, findField kv.1 ≠ some .note) → t1.Note = t.Note) ∧
    ((∀ kv ∈ members, findField kv.1 ≠ some .applications) →
        t1.Applications = t.Applications) := by
  induction members generalizing t with
  | nil =>
    simp only [decodeMembers, Except.ok.injEq] at h
    subst h
    exact ⟨fun _ => rfl, fun _ => rfl, fun _ => rfl⟩
  | cons kv rest ih =>
    obtain ⟨key, v⟩ := kv
    simp only [List.mem_cons, forall_eq_or_imp]
    unfold decodeMembers at h
    cases hf : findField key with
    | none =>
      rw [hf] at h
      obtain ⟨a, b, c⟩ := ih t h
      exact ⟨fun x => a x.2, fun x => b x.2, fun x => c x.2⟩
    | some f =>
      rw [hf] at h
      cases f with
      | id =>
        simp only at h
        cases hd : decodeString "id" v t.ID with
        | error e => rw [hd] at h; cases h
        | ok s =>
          rw [hd] at h
          obtain ⟨a, b, c⟩ := ih _ h
          exact ⟨fun x => a x.2, fun x => b x.2, fun x => c x.2⟩
      | description =>
        simp only at h
        cases hd : decodeString "description" v t.Description with
        | error e => rw [hd] at h; cases h
        | ok s =>
          rw [hd] at h
          obtain ⟨_, b, c⟩ := ih _ h
          exact ⟨fun x => absurd rfl x.1, fun x => b x.2, fun x => c x.2⟩
      | note =>
        simp only at h
        cases hd : decodeString "note" v t.Note with
        | error e => rw [hd] at h; cases h
        | ok s =>
          rw [hd] at h
          obtain ⟨a, _, c⟩ := ih _ h
          exact ⟨fun x => a x.2, fun x => absurd rfl x.1, fun x => c x.2⟩
      | applications =>
        simp only at h
        cases hd : decodeSlice "applications" v t.Applications with
        | error e => rw [hd] at h; cases h
        | ok s =>
          rw [hd] at h
          obtain ⟨a, b, _⟩ := ih _ h
          exact ⟨fun x => a x.2, fun x => b x.2, fun x => absurd rfl x.1⟩

/-! ## Lemmas about reachable stores and the map encoding -/

/-- A handler call leaves the store as it was, or assigns one task under its own id,
or deletes one key. -/
theorem Handler.run_store (h : Handler) (m : TaskMap) (w : ResponseWriter) (r : Request) :
    (h.run m w r).1 = m ∨ (∃ P : Task, (h.run m w r).1 = m.set P.ID P) ∨
      ∃ k : String, (h.run m w r).1 = m.delete k := by
  cases h with
  | getTaskFromMap => left; simp [Handler.run, getTaskFromMap_eq]
  | getTaskFromMapById =>
    left
    cases hg : m.get (URLParam r "id") with
    | none => simp [Handler.run, getTaskFromMapById_missing m w r hg]
    | some t => simp [Handler.run, getTaskFromMapById_found m w r t hg]
  | postTaskOnServer =>
    cases hr : readTask r.Body with
    | error e => left; simp [Handler.run, postTaskOnServer_error m w r e hr]
    | ok P => right; left; exact ⟨P, by simp [Handler.run, postTaskOnServer_ok m w r P hr]⟩
  | deleteTaskFromMapById =>
    cases hr : readTask r.Body with
    | error e => left; simp [Handler.run, deleteTaskFromMapById_error m w r e hr]
    | ok P =>
      right; right
      exact ⟨P.ID, by simp [Handler.run, deleteTaskFromMapById_ok m w r P hr]⟩

/-- In a reachable store every record sits under its own id. -/
theorem Reachable.keyed_by_id {m : TaskMap} (h : Reachable m) :
    ∀ e ∈ m.entries, e.2.ID = e.1 := by
  induction h with
  | init => decide
  | @step hd r m0 _ ih =>
    rcases hd.run_store m0 ResponseWriter.fresh r with h0 | ⟨P, h1⟩ | ⟨k, h2⟩
    · rw [h0]; exact ih
    · rw [h1]
      intro e he
      simp only [TaskMap.set, List.mem_cons, List.mem_filter] at he
      rcases he with rfl | ⟨he, _⟩
      · rfl
      · exact ih e he
    · rw [h2]
      intro e he
      simp only [TaskMap.delete, List.mem_filter] at he
      exact ih e he.1

/-- In a reachable store the ids of the records are the keys. -/
theorem reachable_keys_eq_ids {m : TaskMap} (h : Reachable m) :
    m.entries.map (fun e => e.2.ID) = m.keys := by
  unfold TaskMap.keys
  exact List.map_congr_left h.keyed_by_id

theorem insertByKey_perm (e : String × Task) (l : List (String × Task)) :
    (insertByKey e l).Perm (e :: l) := by
  induction l with
  | nil => exact List.Perm.refl _
  | cons x xs ih =>
    unfold insertByKey
    split
    · exact List.Perm.refl _
    · exact (List.Perm.cons x ih).trans (List.Perm.swap e x xs)

theorem sortByKey_perm (l : List (String × Task)) : (sortByKey l).Perm l := by
  induction l with
  | nil => exact List.Perm.refl _
  | cons e es ih =>
    unfold sortByKey
    exact (insertByKey_perm e _).trans (List.Perm.cons e ih)

/-- The keys of the object `json.Marshal` writes for the map are the keys of the map,
up to order. -/
theorem encodeMap_keys_perm (m : TaskMap) :
    (((sortByKey m.entries).map (fun e => (e.1, encodeTask e.2))).map Prod.fst).Perm
      m.keys := by
  rw [List.map_map]
  exact (sortByKey_perm m.entries).map _

/-! ## Lemmas about the routes of `main` -/

theorem splitSlash_segment (xs : List Char) (h : '/' ∉ xs) : splitSlash xs = [xs] := by
  induction xs with
  | nil => rfl
  | cons c cs ih =>
    rw [List.mem_cons, not_or] at h
    have hc : c ≠ '/' := fun e => h.1 e.symm
    simp [splitSlash, hc, ih h.2]

/-- The segments of the path `/tasks/X` for a segment `X`. -/
theorem splitSlash_tasks_id (X : String) (h : '/' ∉ X.data) :
    splitSlash ("/tasks/" ++ X).data = [[], ['t', 'a', 's', 'k', 's'], X.data] := by
  have hd : ("/tasks/" ++ X).data = '/' :: 't' :: 'a' :: 's' :: 'k' :: 's' :: '/' :: X.data := by
    rw [String.data_append]; rfl
  rw [hd]
  simp [splitSlash, splitSlash_segment X.data h]

theorem matchPattern_tasks_id (X : String) (h : '/' ∉ X.data) (hne : X.data ≠ []) :
    matchPattern "/tasks/{id}" ("/tasks/" ++ X) = some [("id", X)] := by
  have hp : splitSlash "/tasks/{id}".data
      = [[], ['t', 'a', 's', 'k', 's'], ['{', 'i', 'd', '}']] := by decide
  have hn1 : paramName [] = none := rfl
  have hn2 : paramName ['t', 'a', 's', 'k', 's'] = none := rfl
  have hn3 : paramName ['{', 'i', 'd', '}'] = some "id" := by decide
  unfold matchPattern
  rw [hp, splitSlash_tasks_id X h]
  simp [matchSegments, hn1, hn2, hn3, hne]

theorem matchPattern_tasks_only (X : String) (h : '/' ∉ X.data) :
    matchPattern "/tasks" ("/tasks/" ++ X) = none := by
  have hp : splitSlash "/tasks".data = [[], ['t', 'a', 's', 'k', 's']] := by decide
  have hn1 : paramName [] = none := rfl
  have hn2 : paramName ['t', 'a', 's', 'k', 's'] = none := rfl
  unfold matchPattern
  rw [hp, splitSlash_tasks_id X h]
  simp [matchSegments, hn1, hn2]

/-- A GET request routed on `/tasks/X` reaches `getTaskFromMapById` with the URL
parameter `id = X`. -/
theorem ServeHTTP_get_by_id (m : TaskMap) (g : Request) (X : String)
    (hm : g.Method = "GET") (hp : routePath g = "/tasks/" ++ X)
    (h : '/' ∉ X.data) (hne : X.data ≠ []) :
    ServeHTTP m g
      = getTaskFromMapById m ResponseWriter.fresh { g with URLParams := [("id", X)] } := by
  simp [ServeHTTP, methodMap, routes, hm, hp, matchPattern_tasks_id X h hne,
    matchPattern_tasks_only X h, Handler.run]

/-- A DELETE request routed on `/tasks/Y` reaches `deleteTaskFromMapById`. -/
theorem ServeHTTP_delete (m : TaskMap) (d : Request) (Y : String)
    (hm : d.Method = "DELETE") (hp : routePath d = "/tasks/" ++ Y)
    (h : '/' ∉ Y.data) (hne : Y.data ≠ []) :
    ServeHTTP m d
      = deleteTaskFromMapById m ResponseWriter.fresh { d with URLParams := [("id", Y)] } := by
  simp [ServeHTTP, methodMap, routes, hm, hp, matchPattern_tasks_id Y h hne,
    matchPattern_tasks_only Y h, Handler.run]

/-! ## The claims -/

/-- C1: for every store and every body that decodes to a task `P`, running
`postTaskOnServer` on that body and then `getTaskFromMapById` with path id `P.ID`
answers 200 with a body that is JSON and decodes to a task equal to `P` (id,
description, note and applications, in order). -/
theorem post_then_get_returns_payload (m : TaskMap) (post get : Request) (P : Task)
    (hP : readTask post.Body = .ok P) (hid : URLParam get "id" = P.ID) :
    ((getTaskFromMapById (postTaskOnServer m ResponseWriter.fresh post).1
        ResponseWriter.fresh get).2.status = 200) ∧
    ∃ v, (getTaskFromMapById (postTaskOnServer m ResponseWriter.fresh post).1
        ResponseWriter.fresh get).2.body = [Chunk.json v] ∧
      jsonUnmarshal (.valid v) Task.zero = .ok P := by
  rw [postTaskOnServer_ok m _ post P hP]
  have hget : (m.set P.ID P).get (URLParam get "id") = some P := by
    rw [hid]; exact m.get_set_self P.ID P
  rw [getTaskFromMapById_found _ _ get P hget, jsonHeader_fresh]
  refine ⟨by simp [ResponseWriter.Write, ResponseWriter.WriteHeader, StatusOK],
    encodeTask P, by simp [ResponseWriter.Write, ResponseWriter.WriteHeader, StatusOK], ?_⟩
  exact unmarshalValue_encodeTask P Task.zero

/-- The spec's scenario: posting task "3" to the initial store, then fetching it. -/
theorem post_then_get_returns_payload_witness :
    ((getTaskFromMapById (postTaskOnServer tasks ResponseWriter.fresh
        { Method := "POST", Path := "/tasks",
          Body := .data (.valid (.object [("id", .string "3"), ("description", .string "x"),
            ("note", .string "y"), ("applications", .array [])])) }).1
        ResponseWriter.fresh
        { Path := "/tasks/3", URLParams := [("id", "3")] }).2.status = 200) ∧
    ∃ v, (getTaskFromMapById (postTaskOnServer tasks ResponseWriter.fresh
        { Method := "POST", Path := "/tasks",
          Body := .data (.valid (.object [("id", .string "3"), ("description", .string "x"),
            ("note", .string "y"), ("applications", .array [])])) }).1
        ResponseWriter.fresh
        { Path := "/tasks/3", URLParams := [("id", "3")] }).2.body = [Chunk.json v] ∧
      jsonUnmarshal (.valid v) Task.zero
        = .ok { ID := "3", Description := "x", Note := "y", Applications := some [] } :=
  post_then_get_returns_payload tasks _ _
    { ID := "3", Description := "x", Note := "y", Applications := some [] }
    rfl rfl

/-- C2: for every store and every request whose body is not well-formed JSON for a
`Task` (reading it or decoding it fails), `postTaskOnServer` and
`deleteTaskFromMapById` both answer 400 and return the store as it was. -/
theorem malformed_body_rejected (m : TaskMap) (r : Request)
    (hbad : ∀ t, readTask r.Body ≠ .ok t) :
    (postTaskOnServer m ResponseWriter.fresh r).2.status = 400 ∧
    (postTaskOnServer m ResponseWriter.fresh r).1 = m ∧
    (deleteTaskFromMapById m ResponseWriter.fresh r).2.status = 400 ∧
    (deleteTaskFromMapById m ResponseWriter.fresh r).1 = m := by
  cases h : readTask r.Body with
  | ok t => exact absurd h (hbad t)
  | error e =>
    rw [postTaskOnServer_error m _ r e h, deleteTaskFromMapById_error m _ r e h,
      httpError_fresh e StatusBadRequest (by decide)]
    exact ⟨rfl, rfl, rfl, rfl⟩

/-- A body that is not JSON, sent to the initial store. -/
theorem malformed_body_rejected_witness :
    (postTaskOnServer tasks ResponseWriter.fresh
      { Body := .data (.invalid "invalid character 'x' looking for beginning of value") }
      ).2.status = 400 ∧
    (postTaskOnServer tasks ResponseWriter.fresh
      { Body := .data (.invalid "invalid character 'x' looking for beginning of value") }
      ).1 = tasks ∧
    (deleteTaskFromMapById tasks ResponseWriter.fresh
      { Body := .data (.invalid "invalid character 'x' looking for beginning of value") }
      ).2.status = 400 ∧
    (deleteTaskFromMapById tasks ResponseWriter.fresh
      { Body := .data (.invalid "invalid character 'x' looking for beginning of value") }
      ).1 = tasks :=
  malformed_body_rejected tasks
    { Body := .data (.invalid "invalid character 'x' looking for beginning of value") }
    (fun t h => by simp [readTask, ReadFrom, jsonUnmarshal] at h)

/-- C5: when the store holds a record under `K` and the body decodes to a task `P`
with `P.ID = K`, after `postTaskOnServer` the record under `K` is `P`, whatever the old
record was, and `(K, P)` is the only entry under `K`; a field that the JSON object of
the body does not mention is the zero value in `P` (empty string, nil slice), not the
old value. -/
theorem post_replaces_whole_record (m : TaskMap) (r : Request) (K : String)
    (old P : Task) (_hold : m.get K = some old) (hP : readTask r.Body = .ok P)
    (hK : P.ID = K) :
    (postTaskOnServer m ResponseWriter.fresh r).1.get K = some P ∧
    (postTaskOnServer m ResponseWriter.fresh r).1.entries.filter (fun e => e.1 == K)
      = [(K, P)] ∧
    (∀ members, r.Body = .data (.valid (.object members)) →
      ((∀ kv ∈ members, findField kv.1 ≠ some .description) → P.Description = "") ∧
      ((∀ kv ∈ members, findField kv.1 ≠ some .note) → P.Note = "") ∧
      ((∀ kv ∈ members, findField kv.1 ≠ some .applications) →
        P.Applications = none)) := by
  refine ⟨?_, ?_, ?_⟩
  · rw [postTaskOnServer_ok m _ r P hP, ← hK]
    exact m.get_set_self P.ID P
  · rw [postTaskOnServer_ok m _ r P hP, ← hK]
    simp [TaskMap.set, List.filter_cons, List.filter_filter]
  · intro members hb
    rw [hb] at hP
    exact decodeMembers_frame members Task.zero P hP

/-- Posting `{"id": "1"}` to the initial store: the stored record under "1" has no
description, note or applications left. -/
theorem post_replaces_whole_record_witness :
    (postTaskOnServer tasks ResponseWriter.fresh
        { Method := "POST", Path := "/tasks",
          Body := .data (.valid (.object [("id", .string "1")])) }).1.get "1"
      = some { ID := "1", Description := "", Note := "", Applications := none } :=
  (post_replaces_whole_record tasks
    { Method := "POST", Path := "/tasks",
      Body := .data (.valid (.object [("id", .string "1")])) }
    "1"
    { ID := "1"
      Description := "Сделать финальное задание темы REST API"
      Note := "Если сегодня сделаю, то завтра будет свободный день. Ура!"
      Applications := some ["VS Code", "Terminal", "git"] }
    { ID := "1", Description := "", Note := "", Applications := none }
    (by decide) rfl rfl).1

/-- C6, as stated, fails: for the id "999", absent from the initial store, the handler
answers 400, but the body is the message followed by a newline, not exactly the
message. -/
theorem get_missing_body_counterexample :
    ¬ ((getTaskFromMapById tasks ResponseWriter.fresh
          { Path := "/tasks/999", URLParams := [("id", "999")] }).2.status = 400 ∧
        (getTaskFromMapById tasks ResponseWriter.fresh
          { Path := "/tasks/999", URLParams := [("id", "999")] }).2.body
          = [Chunk.text "Задание не найдено"]) := by
  intro h
  have hb : (getTaskFromMapById tasks ResponseWriter.fresh
      { Path := "/tasks/999", URLParams := [("id", "999")] }).2.body
      = [Chunk.text "Задание не найдено\n"] := rfl
  rw [hb] at h
  simp at h

/-- C6, amended: for every store and request, `getTaskFromMapById` answers 400 exactly
when the path id is not a key of the store, and 200 when it is; in the 400 case the
body is the text "Задание не найдено" followed by one newline. -/
theorem get_by_id_status (m : TaskMap) (r : Request) :
    (URLParam r "id" ∉ m.keys →
      (getTaskFromMapById m ResponseWriter.fresh r).2.status = 400 ∧
      (getTaskFromMapById m ResponseWriter.fresh r).2.body
        = [Chunk.text "Задание не найдено\n"]) ∧
    (URLParam r "id" ∈ m.keys →
      (getTaskFromMapById m ResponseWriter.fresh r).2.status = 200) ∧
    ((getTaskFromMapById m ResponseWriter.fresh r).2.status = 400 ↔
      URLParam r "id" ∉ m.keys) := by
  cases h : m.get (URLParam r "id") with
  | none =>
    have hk : URLParam r "id" ∉ m.keys := (m.get_eq_none_iff _).1 h
    rw [getTaskFromMapById_missing m _ r h,
      httpError_fresh _ StatusBadRequest (by decide)]
    exact ⟨fun _ => ⟨rfl, rfl⟩, fun hin => absurd hin hk, fun _ => hk, fun _ => rfl⟩
  | some t =>
    have hk : ¬ URLParam r "id" ∉ m.keys := fun hn => by
      rw [(m.get_eq_none_iff _).2 hn] at h; cases h
    rw [getTaskFromMapById_found m _ r t h, jsonHeader_fresh]
    refine ⟨fun hn => absurd hn hk, fun _ => ?_, fun h4 => ?_, fun hn => absurd hn hk⟩
    · simp [ResponseWriter.Write, ResponseWriter.WriteHeader, StatusOK]
    · simp [ResponseWriter.Write, ResponseWriter.WriteHeader, StatusOK] at h4

/-- C7: for every store and every body that decodes to a task with id `X`,
`deleteTaskFromMapById` answers 200 with Content-Type application/json and an empty
body, whether or not `X` is a key; if `X` is absent the store is unchanged, and in
every case the resulting store has no entry under `X`. -/
theorem delete_answers_ok (m : TaskMap) (r : Request) (P : Task)
    (hP : readTask r.Body = .ok P) :
    (deleteTaskFromMapById m ResponseWriter.fresh r).2.status = 200 ∧
    (deleteTaskFromMapById m ResponseWriter.fresh r).2.contentType
      = some "application/json" ∧
    (deleteTaskFromMapById m ResponseWriter.fresh r).2.body = [] ∧
    (P.ID ∉ m.keys → (deleteTaskFromMapById m ResponseWriter.fresh r).1 = m) ∧
    P.ID ∉ (deleteTaskFromMapById m ResponseWriter.fresh r).1.keys ∧
    (deleteTaskFromMapById m ResponseWriter.fresh r).1.get P.ID = none := by
  rw [deleteTaskFromMapById_ok m _ r P hP, jsonHeader_fresh]
  refine ⟨rfl, rfl, rfl, fun h => ?_, ?_, ?_⟩
  · exact m.delete_absent P.ID ((m.get_eq_none_iff _).2 h)
  · exact (TaskMap.get_eq_none_iff _ _).1 (m.get_delete_self P.ID)
  · exact m.get_delete_self P.ID

/-- Deleting the present id "1" from the initial store: 200, and "1" is gone. -/
theorem delete_answers_ok_witness :
    (deleteTaskFromMapById tasks ResponseWriter.fresh
        { Method := "DELETE", Path := "/tasks/1",
          Body := .data (.valid (.object [("id", .string "1")])) }).2.status = 200 ∧
    (deleteTaskFromMapById tasks ResponseWriter.fresh
        { Method := "DELETE", Path := "/tasks/1",
          Body := .data (.valid (.object [("id", .string "1")])) }).1.get "1" = none :=
  have h := delete_answers_ok tasks
    { Method := "DELETE", Path := "/tasks/1",
      Body := .data (.valid (.object [("id", .string "1")])) }
    { ID := "1", Description := "", Note := "", Applications := none } rfl
  ⟨h.1, h.2.2.2.2.2⟩

/-- C8, as stated, fails: the 400 response for the unknown id "999" carries a
non-empty body, and its Content-Type is not application/json. -/
theorem error_content_type_counterexample :
    ¬ ((getTaskFromMapById tasks ResponseWriter.fresh
          { Path := "/tasks/999", URLParams := [("id", "999")] }).2.hasBody = true →
        (getTaskFromMapById tasks ResponseWriter.fresh
          { Path := "/tasks/999", URLParams := [("id", "999")] }).2.contentType
          = some "application/json") := by
  decide

/-- C8, amended: for every handler, store and request the status is 200, 201 or 400;
a response below 400 (the only kind that carries JSON) has Content-Type
application/json, and a 400 response carries a non-empty plain-text body with
Content-Type text/plain; charset=utf-8. -/
theorem content_type_follows_status (h : Handler) (m : TaskMap) (r : Request) :
    ((h.run m ResponseWriter.fresh r).2.status = 200 ∨
      (h.run m ResponseWriter.fresh r).2.status = 201 ∨
      (h.run m ResponseWriter.fresh r).2.status = 400) ∧
    ((h.run m ResponseWriter.fresh r).2.status < 400 →
      (h.run m ResponseWriter.fresh r).2.contentType = some "application/json") ∧
    ((h.run m ResponseWriter.fresh r).2.status = 400 →
      (h.run m ResponseWriter.fresh r).2.contentType = some "text/plain; charset=utf-8" ∧
      (h.run m ResponseWriter.fresh r).2.hasBody = true) := by
  have herr : ∀ e : String,
      (httpError ResponseWriter.fresh e StatusBadRequest).status = 400 ∧
      (httpError ResponseWriter.fresh e StatusBadRequest).contentType
        = some "text/plain; charset=utf-8" ∧
      (httpError ResponseWriter.fresh e StatusBadRequest).hasBody = true := by
    intro e
    rw [httpError_fresh e StatusBadRequest (by decide)]
    refine ⟨rfl, rfl, ?_⟩
    simp [ResponseWriter.hasBody, Chunk.isEmpty]
  have hbad : ∀ (e : String),
      ((httpError ResponseWriter.fresh e StatusBadRequest).status = 200 ∨
        (httpError ResponseWriter.fresh e StatusBadRequest).status = 201 ∨
        (httpError ResponseWriter.fresh e StatusBadRequest).status = 400) ∧
      ((httpError ResponseWriter.fresh e StatusBadRequest).status < 400 →
        (httpError ResponseWriter.fresh e StatusBadRequest).contentType
          = some "application/json") ∧
      ((httpError ResponseWriter.fresh e StatusBadRequest).status = 400 →
        (httpError ResponseWriter.fresh e StatusBadRequest).contentType
          = some "text/plain; charset=utf-8" ∧
        (httpError ResponseWriter.fresh e StatusBadRequest).hasBody = true) := by
    intro e
    obtain ⟨h1, h2, h3⟩ := herr e
    refine ⟨Or.inr (Or.inr h1), fun hlt => ?_, fun _ => ⟨h2, h3⟩⟩
    rw [h1] at hlt
    exact absurd hlt (by decide)
  cases h with
  | getTaskFromMap =>
    simp only [Handler.run, getTaskFromMap_eq, jsonHeader_fresh]
    simp [ResponseWriter.Write, ResponseWriter.WriteHeader, StatusOK,
      ResponseWriter.contentType, Header.Get]
  | getTaskFromMapById =>
    cases hg : m.get (URLParam r "id") with
    | none =>
      simp only [Handler.run, getTaskFromMapById_missing m _ r hg]
      exact hbad _
    | some t =>
      simp only [Handler.run, getTaskFromMapById_found m _ r t hg, jsonHeader_fresh]
      simp [ResponseWriter.Write, ResponseWriter.WriteHeader, StatusOK,
        ResponseWriter.contentType, Header.Get]
  | postTaskOnServer =>
    cases hr : readTask r.Body with
    | error e =>
      simp only [Handler.run, postTaskOnServer_error m _ r e hr]
      exact hbad _
    | ok P =>
      simp only [Handler.run, postTaskOnServer_ok m _ r P hr, jsonHeader_fresh]
      simp [StatusCreated, ResponseWriter.contentType, Header.Get]
  | deleteTaskFromMapById =>
    cases hr : readTask r.Body with
    | error e =>
      simp only [Handler.run, deleteTaskFromMapById_error m _ r e hr]
      exact hbad _
    | ok P =>
      simp only [Handler.run, deleteTaskFromMapById_ok m _ r P hr, jsonHeader_fresh]
      simp [StatusOK, ResponseWriter.contentType, Header.Get]

/-- C9: in the initial store and after any finite sequence of calls of the four
handlers, every entry sits under the id of its record; so the ids of the stored
records are the keys of the map, and no two entries share an id. -/
theorem reachable_store_keyed_by_id (m : TaskMap) (h : Reachable m) :
    (∀ e ∈ m.entries, e.2.ID = e.1) ∧
    (∀ k t, m.get k = some t → t.ID = k) ∧
    m.entries.map (fun e => e.2.ID) = m.keys ∧
    (m.entries.map (fun e => e.2.ID)).Nodup := by
  have hk := h.keyed_by_id
  have hmap : m.entries.map (fun e => e.2.ID) = m.keys := by
    unfold TaskMap.keys
    exact List.map_congr_left hk
  refine ⟨hk, ?_, hmap, ?_⟩
  · intro k t hg
    exact hk (k, t) ((m.mem_entries_iff_get k t).2 hg)
  · rw [hmap]; exact m.nodup

/-- The store after posting task "3" to the initial store: the ids of its records
are its keys. -/
theorem reachable_store_keyed_by_id_witness :
    (postTaskOnServer tasks ResponseWriter.fresh
        { Method := "POST", Path := "/tasks",
          Body := .data (.valid (.object [("id", .string "3")])) }).1.entries.map
        (fun e => e.2.ID)
      = (postTaskOnServer tasks ResponseWriter.fresh
        { Method := "POST", Path := "/tasks",
          Body := .data (.valid (.object [("id", .string "3")])) }).1.keys :=
  (reachable_store_keyed_by_id _
    (Reachable.step Handler.postTaskOnServer
      { Method := "POST", Path := "/tasks",
        Body := .data (.valid (.object [("id", .string "3")])) }
      Reachable.init)).2.2.1

/-- C10: a successful create with payload `P` leaves the record under every key other
than `P.ID` as it was; a successful delete whose body carries id `X` leaves the record
under every key other than `X` as it was, the key named by the URL parameter included
when it differs from `X`; the list and get-by-id handlers return the store unchanged
for every request. -/
theorem handlers_frame (m : TaskMap) (r : Request) :
    (∀ P, readTask r.Body = .ok P → ∀ k, k ≠ P.ID →
      (postTaskOnServer m ResponseWriter.fresh r).1.get k = m.get k) ∧
    (∀ P, readTask r.Body = .ok P → ∀ k, k ≠ P.ID →
      (deleteTaskFromMapById m ResponseWriter.fresh r).1.get k = m.get k) ∧
    (∀ P, readTask r.Body = .ok P → URLParam r "id" ≠ P.ID →
      (deleteTaskFromMapById m ResponseWriter.fresh r).1.get (URLParam r "id")
        = m.get (URLParam r "id")) ∧
    (getTaskFromMap m ResponseWriter.fresh r).1 = m ∧
    (getTaskFromMapById m ResponseWriter.fresh r).1 = m := by
  refine ⟨?_, ?_, ?_, ?_, ?_⟩
  · intro P hP k hk
    rw [postTaskOnServer_ok m _ r P hP]
    exact m.get_set_ne P.ID k P hk
  · intro P hP k hk
    rw [deleteTaskFromMapById_ok m _ r P hP]
    exact m.get_delete_ne P.ID k hk
  · intro P hP hk
    rw [deleteTaskFromMapById_ok m _ r P hP]
    exact m.get_delete_ne P.ID _ hk
  · rw [getTaskFromMap_eq]
  · cases hg : m.get (URLParam r "id") with
    | none => rw [getTaskFromMapById_missing m _ r hg]
    | some t => rw [getTaskFromMapById_found m _ r t hg]

/-- C4: in every reachable store `getTaskFromMap` answers 200 with a JSON object whose
keys, none repeated, are exactly the ids of the stored tasks (and exactly the keys of
the map); in the initial store the keys are "1" and "2". -/
theorem list_keys_are_stored_ids (m : TaskMap) (h : Reachable m) (r : Request) :
    ((getTaskFromMap m ResponseWriter.fresh r).2.status = 200 ∧
      ∃ members, (getTaskFromMap m ResponseWriter.fresh r).2.body
          = [Chunk.json (.object members)] ∧
        (members.map Prod.fst).Nodup ∧
        (∀ k, k ∈ members.map Prod.fst ↔ ∃ e ∈ m.entries, e.2.ID = k) ∧
        (∀ k, k ∈ members.map Prod.fst ↔ k ∈ m.keys)) ∧
    ∃ members0, (getTaskFromMap tasks ResponseWriter.fresh r).2.body
        = [Chunk.json (.object members0)] ∧
      members0.map Prod.fst = ["1", "2"] := by
  refine ⟨?_, ?_⟩
  · rw [getTaskFromMap_eq, jsonHeader_fresh]
    refine ⟨by simp [ResponseWriter.Write, ResponseWriter.WriteHeader, StatusOK],
      (sortByKey m.entries).map (fun e => (e.1, encodeTask e.2)),
      by simp [ResponseWriter.Write, ResponseWriter.WriteHeader, StatusOK, encodeMap],
      ?_, ?_, ?_⟩
    · exact (encodeMap_keys_perm m).nodup_iff.2 m.nodup
    · intro k
      rw [(encodeMap_keys_perm m).mem_iff, ← (reachable_keys_eq_ids h)]
      simp [List.mem_map]
    · intro k
      exact (encodeMap_keys_perm m).mem_iff
  · rw [getTaskFromMap_eq, jsonHeader_fresh]
    exact ⟨(sortByKey tasks.entries).map (fun e => (e.1, encodeTask e.2)),
      by simp [ResponseWriter.Write, ResponseWriter.WriteHeader, StatusOK, encodeMap],
      by decide⟩

/-- The list of the initial store. -/
theorem list_keys_are_stored_ids_witness :
    (getTaskFromMap tasks ResponseWriter.fresh { Path := "/tasks" }).2.status = 200 :=
  (list_keys_are_stored_ids tasks Reachable.init { Path := "/tasks" }).1.1

/-- C3, as stated, fails: `DELETE /tasks` is not a registered route, so the request
with body `{"id": "1"}` gets 405 and deletes nothing, and the following `GET /tasks/1`
answers 200, not 400.  Sent to the registered route with the id "", the following
`GET /tasks/` matches no route and answers 404.  And with "a b" stored, after a delete
with body `{"id": "a%20b"}` the request line `GET /tasks/a%20b`, whose `URL.Path` is
`/tasks/a b`, answers 200. -/
theorem delete_tasks_path_counterexample :
    (ServeHTTP tasks
        { Method := "DELETE", Path := "/tasks",
          Body := .data (.valid (.object [("id", .string "1")])) }).2.status = 405 ∧
    (ServeHTTP
        (ServeHTTP tasks
          { Method := "DELETE", Path := "/tasks",
            Body := .data (.valid (.object [("id", .string "1")])) }).1
        { Method := "GET", Path := "/tasks/1" }).2.status = 200 ∧
    ¬ (ServeHTTP
        (ServeHTTP tasks
          { Method := "DELETE", Path := "/tasks",
            Body := .data (.valid (.object [("id", .string "1")])) }).1
        { Method := "GET", Path := "/tasks/1" }).2.status = 400 ∧
    (ServeHTTP
        (ServeHTTP tasks
          { Method := "DELETE", Path := "/tasks/1",
            Body := .data (.valid (.object [("id", .string "")])) }).1
        { Method := "GET", Path := "/tasks/" }).2.status = 404 ∧
    (ServeHTTP
        (ServeHTTP
          (ServeHTTP tasks
            { Method := "POST", Path := "/tasks",
              Body := .data (.valid (.object [("id", .string "a b")])) }).1
          { Method := "DELETE", Path := "/tasks/1",
            Body := .data (.valid (.object [("id", .string "a%20b")])) }).1
        { Method := "GET", Path := "/tasks/a b" }).2.status = 200 := by
  decide

/-- C3, amended: for every store and identifier `X`, `deleteTaskFromMapById` on the
body `{"id": X}` followed by `getTaskFromMapById` with path id `X` answers 400; and
through the routes of `main`, a DELETE request that chi routes on the path `/tasks/Y`
with body `{"id": X}`, followed by a GET request that chi routes on the path
`/tasks/X`, answers 400, for all non-empty segments `X` and `Y` without a slash.  The
path chi routes on is `routePath`: `URL.RawPath` when set, else the decoded
`URL.Path`. -/
theorem delete_then_get_not_found (m : TaskMap) (X Y : String) :
    (∀ d g : Request, d.Body = .data (.valid (.object [("id", .string X)])) →
      URLParam g "id" = X →
      (getTaskFromMapById (deleteTaskFromMapById m ResponseWriter.fresh d).1
        ResponseWriter.fresh g).2.status = 400) ∧
    (X.data ≠ [] → '/' ∉ X.data → Y.data ≠ [] → '/' ∉ Y.data → ∀ d g : Request,
      d.Method = "DELETE" → routePath d = "/tasks/" ++ Y →
      d.Body = .data (.valid (.object [("id", .string X)])) →
      g.Method = "GET" → routePath g = "/tasks/" ++ X →
      (ServeHTTP (ServeHTTP m d).1 g).2.status = 400) := by
  have key : ∀ d g : Request, d.Body = .data (.valid (.object [("id", .string X)])) →
      URLParam g "id" = X →
      (getTaskFromMapById (deleteTaskFromMapById m ResponseWriter.fresh d).1
        ResponseWriter.fresh g).2.status = 400 := by
    intro d g hd hg
    have hread : readTask d.Body
        = .ok { ID := X, Description := "", Note := "", Applications := none } := by
      rw [hd]; exact readTask_id_only X
    rw [deleteTaskFromMapById_ok m _ d _ hread]
    have hnone : (m.delete X).get (URLParam g "id") = none := by
      rw [hg]; exact m.get_delete_self X
    rw [getTaskFromMapById_missing _ _ g hnone,
      httpError_fresh _ StatusBadRequest (by decide)]
    rfl
  refine ⟨key, ?_⟩
  intro hX hXs hY hYs d g hdm hdp hdb hgm hgp
  rw [ServeHTTP_delete m d Y hdm hdp hYs hY, ServeHTTP_get_by_id _ g X hgm hgp hXs hX]
  exact key _ _ hdb rfl

/-- Through the routes, on the initial store: `DELETE /tasks/7` with body
`{"id": "1"}`, then `GET /tasks/1`. -/
theorem delete_then_get_not_found_witness :
    (ServeHTTP
        (ServeHTTP tasks
          { Method := "DELETE", Path := "/tasks/7",
            Body := .data (.valid (.object [("id", .string "1")])) }).1
        { Method := "GET", Path := "/tasks/1" }).2.status = 400 :=
  (delete_then_get_not_found tasks "1" "7").2 (by decide) (by decide) (by decide)
    (by decide)
    { Method := "DELETE", Path := "/tasks/7",
      Body := .data (.valid (.object [("id", .string "1")])) }
    { Method := "GET", Path := "/tasks/1" }
    rfl (by decide) rfl rfl (by decide)

end Precode
